import Mathlib

/-!
Verification development for the hf-coder-gui streaming-generation pipeline
and incremental syntax-highlighting engine (reference source: src/main.py).

The embedding translates the Python source into executable Lean definitions:

* `SyntaxHighlightingText` (the highlighter widget): `highlight_syntax`,
  `detect_lexer` (`_detect_lexer`), `apply_highlighting`
  (`_apply_highlighting`), `get_tag_for_token` (`_get_tag_for_token`) and
  the `TAG_MAP` table.  Text is modelled in character coordinates; the Tk
  call `get("1.0", tk.END)` returns the buffer content followed by one
  trailing newline (`widgetText`), and `tag_add` is modelled as failing
  (raising `TclError`, caught by the source's `try`/`except` guard) exactly
  when the computed end offset exceeds the current text length.  The
  Pygments lexers are external; they enter the model as an abstract
  tokenizer argument `lexF : LexerTag → String → List (TokKind × String)`.
* The generation worker (`generate_code.worker`): `streamEmit`,
  `workerEvents`.  One streaming run is observed as the list of chunk
  contents the iterator yields (each `Option String`, the value of
  `getattr(delta, "content", None)`) plus an optional exception raised when
  the iterator is pumped past the listed chunks; the cooperative
  `stop_flag` is observed at each chunk boundary through `stop : Nat → Bool`.
* The Tk-side consumer (`_start_queue_processor` plus the four handlers
  `_append_response`, `_set_response`, `_handle_error`,
  `_finish_generation`): `dispatchEvent`, `processEvents`, `processTicks`,
  acting on `GUIState`.
* The synchronous part of `generate_code` and `stop_generation`.

Python strings are modelled as `String`/`List Char` (character-indexed,
matching Python's code-point semantics); Python truthiness of an optional
string (`if content:`) is non-`None` and non-empty.
-/

/-- The stream events carried by `response_queue`: the `(action, payload)`
pairs `("append", text)`, `("set", text)`, `("error", msg)`, `("done", "")`. -/
inductive StreamEvent where
  | append (text : String)
  | set (text : String)
  | error (msg : String)
  | done
deriving DecidableEq

/-- Pygments token kinds occurring in `TAG_MAP`, plus representative kinds
outside the table (`Text`, `Name`, `Punctuation`, ...).  Pygments token
membership `token in token_types` on a tuple is exact equality, which the
constructors model directly. -/
inductive TokKind where
  | Keyword | KeywordConstant | KeywordDeclaration | KeywordNamespace | KeywordReserved
  | Str | StringDouble | StringSingle | StringDoc | StringHeredoc
  | Comment | CommentSingle | CommentMultiline | CommentSpecial
  | NameFunction | NameClassTok | NameDecorator
  | Number | NumberInteger | NumberFloat | NumberHex | NumberOct
  | Operator | OperatorWord
  | NameBuiltin | NameBuiltinPseudo | NameException
  | Name | Text | Punctuation | Whitespace | Other
deriving DecidableEq

/-- The language tags of the six lexers the detector can return. -/
inductive LexerTag where
  | python | bash | c | javascript | json | html
deriving DecidableEq

/-- A currently applied tag range of the Tk text widget:
`tag_add(tag, "1.0+{start}c", "1.0+{stop}c")`. -/
structure StyleSpan where
  tag : String
  start : Nat
  stop : Nat
deriving DecidableEq

/-- The state of the `SyntaxHighlightingText` widget: its text content and
the currently applied tag ranges (including the selection tag `"sel"`). -/
structure HLState where
  buffer : String
  spans : List StyleSpan
deriving DecidableEq

/-- `SyntaxHighlightingText.TAG_MAP`, in source (insertion) order. -/
def TAG_MAP : List (List TokKind × String) :=
  [([TokKind.Keyword, TokKind.KeywordConstant, TokKind.KeywordDeclaration,
     TokKind.KeywordNamespace], "keyword"),
   ([TokKind.Str, TokKind.StringDouble, TokKind.StringSingle, TokKind.StringDoc,
     TokKind.StringHeredoc], "string"),
   ([TokKind.Comment, TokKind.CommentSingle, TokKind.CommentMultiline,
     TokKind.CommentSpecial], "comment"),
   ([TokKind.NameFunction, TokKind.NameClassTok, TokKind.NameDecorator], "function"),
   ([TokKind.Number, TokKind.NumberInteger, TokKind.NumberFloat, TokKind.NumberHex,
     TokKind.NumberOct], "number"),
   ([TokKind.Operator, TokKind.OperatorWord], "operator"),
   ([TokKind.NameBuiltin, TokKind.NameBuiltinPseudo, TokKind.NameException], "builtin")]

/-- `_get_tag_for_token`: walk `TAG_MAP` in order and return the tag of the
first entry whose token tuple contains the token; `None` when no entry
matches. -/
def get_tag_for_token (t : TokKind) : Option String :=
  (TAG_MAP.find? (fun p => p.1.contains t)).map (fun p => p.2)

/-- Python `needle in hay` substring test on character lists. -/
def containsStr (hay needle : List Char) : Bool :=
  (hay.tails).any (fun t => needle.isPrefixOf t)

/-- Python `not text.strip()`: the text consists of whitespace only. -/
def stripEmpty (text : List Char) : Bool :=
  text.all Char.isWhitespace

/-- Python `text.strip().startswith("{")`: after stripping leading
whitespace the first character is an opening brace. -/
def stripStartsBrace (text : List Char) : Bool :=
  match text.dropWhile Char.isWhitespace with
  | [] => false
  | c :: _ => c == '\x7b'

/-- The local `first = text[:300].lower()` of `_detect_lexer`. -/
def lowerFirst300 (text : List Char) : List Char :=
  (text.take 300).map Char.toLower

/-- Python-keyword markers checked by `_detect_lexer`. -/
def pyMarkers : List (List Char) :=
  ["import ".toList, "def ".toList, "class ".toList, "print(".toList, "__init__".toList]

/-- Bash markers checked by `_detect_lexer`. -/
def bashMarkers : List (List Char) :=
  ["#!/bin/bash".toList, "sudo ".toList, "apt ".toList, "curl ".toList]

/-- JavaScript markers checked by `_detect_lexer`. -/
def jsMarkers : List (List Char) :=
  ["function ".toList, "const ".toList, "let ".toList, "var ".toList, "=>".toList]

/-- `_detect_lexer`: ordered first-match heuristic.  All marker searches run
over the lowered 300-character prefix `first`, except the JSON test, which
the source performs on the stripped **full** text. -/
def detect_lexer (text : List Char) : LexerTag :=
  let first := lowerFirst300 text
  if pyMarkers.any (fun k => containsStr first k) then LexerTag.python
  else if bashMarkers.any (fun k => containsStr first k) then LexerTag.bash
  else if containsStr first ("#include".toList) || containsStr first ("int main(".toList) then
    LexerTag.c
  else if jsMarkers.any (fun k => containsStr first k) then LexerTag.javascript
  else if stripStartsBrace text then LexerTag.json
  else if containsStr first ("<html".toList) then LexerTag.html
  else LexerTag.python

/-- `self.get("1.0", tk.END)`: the widget content followed by the trailing
newline Tk always reports. -/
def widgetText (b : String) : String := b ++ "\n"

/-- `_apply_highlighting`: walk the lexer's `(token, content)` stream
keeping a cumulative character offset `idx`; for each token with a mapped
tag attempt `tag_add` on `[idx, idx + len(content))`, where `tag_add` fails
(and the `except tk.TclError: pass` guard skips the span) exactly when the
end offset exceeds the widget text length `bufLen`. -/
def apply_highlighting (bufLen : Nat) : List (TokKind × String) → Nat → List StyleSpan
  | [], _ => []
  | (k, c) :: rest, idx =>
    (match get_tag_for_token k with
     | some tg => if idx + c.length ≤ bufLen then [⟨tg, idx, idx + c.length⟩] else []
     | none => []) ++ apply_highlighting bufLen rest (idx + c.length)

/-- `highlight_syntax`: fetch the widget text; return untouched when it is
whitespace-only; otherwise remove every tag range except `"sel"`, detect the
lexer and apply fresh highlighting over the whole text.  The first component
reports which lexer tag was detected (`none` when detection never ran). -/
def highlight_syntax (lexF : LexerTag → String → List (TokKind × String))
    (r : HLState) : Option LexerTag × HLState :=
  let text := widgetText r.buffer
  if stripEmpty text.toList then (none, r)
  else
    let kept := r.spans.filter (fun sp => sp.tag == "sel")
    let tg := detect_lexer text.toList
    (some tg, { buffer := r.buffer,
                spans := kept ++ apply_highlighting text.length (lexF tg text) 0 })

/-- The observable state of `HuggingFaceCoderGUI` relevant to the pipeline:
the activation client, prompt text, session flags, button affordances,
status line, the response widget and the event channel contents. -/
structure GUIState where
  clientSet : Bool
  promptText : String
  generationActive : Bool
  stopFlag : Bool
  generateEnabled : Bool
  stopEnabled : Bool
  statusText : String
  resp : HLState
  queue : List StreamEvent
deriving DecidableEq

/-- `_append_response`: insert `text` at the end of the response widget
(existing tag ranges are unaffected, the inserted text is untagged) and
re-run `highlight_syntax`. -/
def append_response (lexF : LexerTag → String → List (TokKind × String))
    (r : HLState) (t : String) : HLState :=
  ( highlight_syntax lexF { buffer := r.buffer ++ t, spans := r.spans }).2

/-- `_set_response`: delete the whole widget content (which drops every tag
range living on the deleted text), insert `text`, and re-run
`highlight_syntax`. -/
def set_response (lexF : LexerTag → String → List (TokKind × String))
    (t : String) : HLState :=
  ( highlight_syntax lexF { buffer := t, spans := [] }).2

/-- `_handle_error`: append the error block to the response widget,
re-highlight, set the status line and restore the idle affordances. -/
def handle_error (lexF : LexerTag → String → List (TokKind × String))
    (s : GUIState) (msg : String) : GUIState :=
  { s with
    resp := append_response lexF s.resp ("\n\n[ERROR]\n" ++ msg),
    statusText := "❌ Error during generation: " ++ msg.take 120,
    generationActive := false,
    stopFlag := false,
    generateEnabled := true,
    stopEnabled := false }

/-- `_finish_generation`: restore the idle affordances; refresh the status
line unless it currently reports an error. -/
def finish_generation (s : GUIState) : GUIState :=
  { s with
    generationActive := false,
    stopFlag := false,
    generateEnabled := true,
    stopEnabled := false,
    statusText :=
      if containsStr s.statusText.toList ("Error".toList) then s.statusText
      else "✅ Generation finished." }

/-- One step of the `process_queue` drain loop: dispatch a single event to
its handler. -/
def dispatchEvent (lexF : LexerTag → String → List (TokKind × String))
    (s : GUIState) : StreamEvent → GUIState
  | StreamEvent.append t => { s with resp := append_response lexF s.resp t }
  | StreamEvent.set t => { s with resp := set_response lexF t }
  | StreamEvent.error m => handle_error lexF s m
  | StreamEvent.done => finish_generation s

/-- One tick of `process_queue`: drain a batch of queued events to empty,
in FIFO order. -/
def processEvents (lexF : LexerTag → String → List (TokKind × String))
    (evts : List StreamEvent) (s : GUIState) : GUIState :=
  evts.foldl (dispatchEvent lexF) s

/-- The 50ms-cadence dispatcher: each tick drains the events queued since
the previous tick; `ticks` lists the batches in arrival order. -/
def processTicks (lexF : LexerTag → String → List (TokKind × String))
    (ticks : List (List StreamEvent)) (s : GUIState) : GUIState :=
  ticks.foldl (fun st evts => processEvents lexF evts st) s

/-- Events enqueued for one received streaming chunk:
`content = getattr(delta, "content", None); if content: put(("append", content))`
(Python truthiness: non-`None` and non-empty). -/
def chunkEvents (c : Option String) : List StreamEvent :=
  match c with
  | some t => if t.length ≠ 0 then [StreamEvent.append t] else []
  | none => []

/-- The streaming `for chunk in ...` loop of `generate_code.worker`,
started at chunk index `i`.  Each loop body first observes the cooperative
`stop` flag and breaks when it is set (then the `put(("done", ""))` after
the loop still runs); otherwise it enqueues the chunk's events.  Pumping
the iterator past the listed chunks either ends the stream normally
(`err = none`, so `done` is enqueued) or raises (`err = some msg`, caught
by the `except` arms, which enqueue one `error` event and nothing else). -/
def streamEmit (stop : Nat → Bool) :
    List (Option String) → Nat → Option String → List StreamEvent
  | [], _, none => [StreamEvent.done]
  | [], _, some m => [StreamEvent.error m]
  | c :: cs, i, err =>
    if stop i then [StreamEvent.done]
    else chunkEvents c ++ streamEmit stop cs (i + 1) err

/-- One observable execution of `generate_code.worker`: a streaming run
(chunks plus optional terminal exception) or a non-streaming call that
either returns the full content or raises. -/
inductive GenRun where
  | streaming (chunks : List (Option String)) (err : Option String)
  | nonStreaming (result : Except String String)

/-- The full event sequence one worker run enqueues onto `response_queue`. -/
def workerEvents (run : GenRun) (stop : Nat → Bool) : List StreamEvent :=
  match run with
  | GenRun.streaming chunks err => streamEmit stop chunks 0 err
  | GenRun.nonStreaming (Except.ok content) => [StreamEvent.set content, StreamEvent.done]
  | GenRun.nonStreaming (Except.error m) => [StreamEvent.error m]

/-- The `(chunk index, appended text)` pairs one received chunk contributes. -/
def chunkAppendIdx (c : Option String) (i : Nat) : List (Nat × String) :=
  match c with
  | some t => if t.length ≠ 0 then [(i, t)] else []
  | none => []

/-- The `(chunk index, appended text)` pairs the streaming loop enqueues,
following exactly the recursion of `streamEmit`. -/
def streamAppendsIdx (stop : Nat → Bool) :
    List (Option String) → Nat → List (Nat × String)
  | [], _ => []
  | c :: cs, i =>
    if stop i then []
    else chunkAppendIdx c i ++ streamAppendsIdx stop cs (i + 1)

/-- The payloads of the `append` events of an event list, in order. -/
def appendTexts (evts : List StreamEvent) : List String :=
  evts.filterMap (fun e =>
    match e with
    | StreamEvent.append t => some t
    | _ => none)

/-- Terminal events of a session: `done` and `error`. -/
def isTerminal : StreamEvent → Bool
  | StreamEvent.done => true
  | StreamEvent.error _ => true
  | _ => false

/-- Concatenation `t1 ++ t2 ++ ... ++ tn` of a list of texts. -/
def concatAll : List String → String
  | [] => ""
  | t :: ts => t ++ concatAll ts

/-- The synchronous body of `generate_code`.  It returns the updated state
together with whether a worker thread was started.  The three early-return
guards (no client, empty prompt, a generation already active) leave the
state untouched and start nothing; otherwise the session flags and button
affordances flip, the status line changes and the response widget is
cleared before the worker starts. -/
def generate_code (s : GUIState) : GUIState × Bool :=
  if s.clientSet = false then (s, false)
  else if stripEmpty s.promptText.toList then (s, false)
  else if s.generationActive then (s, false)
  else
    ({ s with
        generationActive := true,
        stopFlag := false,
        generateEnabled := false,
        stopEnabled := true,
        statusText := "⏳ Generating code...",
        resp := { buffer := "", spans := [] } }, true)

/-- `stop_generation`: a no-op when no generation is active; otherwise set
the cooperative stop flag and update the status line. -/
def stop_generation (s : GUIState) : GUIState :=
  if s.generationActive = false then s
  else { s with stopFlag := true, statusText := "⏹ Stopping generation..." }

/-- Total character length of a token stream's contents. -/
def tokensLen : List (TokKind × String) → Nat
  | [] => 0
  | p :: rest => p.2.length + tokensLen rest

/-- Tokens annotated with their global character offsets, accumulated from
the given base offset: the spec-side offset accounting of §4.4. -/
def withOffsets : List (TokKind × String) → Nat → List (TokKind × Nat × Nat)
  | [], _ => []
  | (k, c) :: rest, i => (k, i, i + c.length) :: withOffsets rest (i + c.length)

/-- Spec-side styling of one offset-annotated token: map its kind through
the kind-to-style table (first matching entry wins, unmapped kinds produce
no span). -/
def spanOfTok (p : TokKind × Nat × Nat) : Option StyleSpan :=
  (get_tag_for_token p.1).map (fun tg => { tag := tg, start := p.2.1, stop := p.2.2 })

/-- Modelled from the spec wording of C4: the spans obtained by lexing the
entire buffer from offset 0 and mapping each token kind through the fixed
kind-to-style table, first-matching-entry-wins, dropping unmapped tokens. -/
def specSpans (toks : List (TokKind × String)) : List StyleSpan :=
  (withOffsets toks 0).filterMap spanOfTok

/-- A degenerate tokenizer producing no tokens, used on concrete inputs. -/
def lexNone : LexerTag → String → List (TokKind × String) := fun _ _ => []

/-- A concrete tokenizer for the buffer `"def x"` (widget text `"def x\n"`). -/
def lexDemo : LexerTag → String → List (TokKind × String) := fun _ _ =>
  [(TokKind.Keyword, "def"), (TokKind.Text, " "), (TokKind.Name, "x"), (TokKind.Text, "\n")]

/-- A concrete highlighter state holding code and one stale style span. -/
def rDemo : HLState :=
  { buffer := "def x", spans := [{ tag := "comment", start := 0, stop := 1 }] }

/-- A concrete whitespace-only highlighter state with one applied span. -/
def rBlank : HLState :=
  { buffer := "  ", spans := [{ tag := "keyword", start := 0, stop := 1 }] }

/-- A concrete application state with an active generation session. -/
def sDemo : GUIState :=
  { clientSet := true, promptText := "write a function", generationActive := true,
    stopFlag := false, generateEnabled := false, stopEnabled := true,
    statusText := "⏳ Generating code...", resp := { buffer := "", spans := [] },
    queue := [] }

/-- 300 spaces followed by an opening brace. -/
def cexJson : List Char := List.replicate 300 ' ' ++ ['\x7b']

/-- 300 spaces followed by a letter. -/
def cexPlain : List Char := List.replicate 300 ' ' ++ ['x']

/-- 301 copies of `a`. -/
def cexA : List Char := List.replicate 301 'a'

/-- 302 copies of `a`. -/
def cexB : List Char := List.replicate 302 'a'

/-- A stop schedule that is observed set from chunk boundary 1 onwards. -/
def stopAfter1 : Nat → Bool := fun i => decide (1 ≤ i)

/-- A concrete streamed chunk sequence. -/
def chunksDemo : List (Option String) := [some "Hello", some ", ", some "world"]

/-! ## Helper lemmas -/

theorem highlight_syntax_buffer (lexF : LexerTag → String → List (TokKind × String))
    (r : HLState) : ( highlight_syntax lexF r).2.buffer = r.buffer := by
  simp only [ highlight_syntax]
  split <;> rfl

theorem dispatch_append_buffer (lexF : LexerTag → String → List (TokKind × String))
    (s : GUIState) (t : String) :
    (dispatchEvent lexF s (StreamEvent.append t)).resp.buffer = s.resp.buffer ++ t := by
  simp only [dispatchEvent, append_response, highlight_syntax_buffer]

theorem processEvents_cons (lexF : LexerTag → String → List (TokKind × String))
    (e : StreamEvent) (evts : List StreamEvent) (s : GUIState) :
    processEvents lexF (e :: evts) s = processEvents lexF evts (dispatchEvent lexF s e) := rfl

theorem processEvents_concat (lexF : LexerTag → String → List (TokKind × String))
    (a b : List StreamEvent) (s : GUIState) :
    processEvents lexF (a ++ b) s = processEvents lexF b (processEvents lexF a s) := by
  simp [processEvents, List.foldl_append]

theorem buffer_appends (lexF : LexerTag → String → List (TokKind × String)) :
    ∀ (ts : List String) (s : GUIState),
      (processEvents lexF (ts.map StreamEvent.append) s).resp.buffer
        = s.resp.buffer ++ concatAll ts := by
  intro ts
  induction ts with
  | nil => intro s; simp [processEvents, concatAll]
  | cons t ts ih =>
    intro s
    rw [List.map_cons, processEvents_cons, ih, dispatch_append_buffer]
    simp [concatAll, String.append_assoc]

theorem processTicks_eq_flatten (lexF : LexerTag → String → List (TokKind × String))
    (ticks : List (List StreamEvent)) (s : GUIState) :
    processTicks lexF ticks s = processEvents lexF ticks.flatten s := by
  simp [processTicks, processEvents, List.foldl_flatten]

theorem streamEmit_terminal (stop : Nat → Bool) (err : Option String) :
    ∀ (chunks : List (Option String)) (i : Nat),
      ∃ es t, streamEmit stop chunks i err = es ++ [t] ∧
        (∀ e ∈ es, isTerminal e = false) ∧
        (t = StreamEvent.done ∨ ∃ m, t = StreamEvent.error m) := by
  intro chunks
  induction chunks with
  | nil =>
    intro i
    cases err with
    | none => exact ⟨[], StreamEvent.done, rfl, by simp, Or.inl rfl⟩
    | some m => exact ⟨[], StreamEvent.error m, rfl, by simp, Or.inr ⟨m, rfl⟩⟩
  | cons c cs ih =>
    intro i
    by_cases h : stop i = true
    · exact ⟨[], StreamEvent.done, by simp [streamEmit, h], by simp, Or.inl rfl⟩
    · obtain ⟨es, t, he, hn, ht⟩ := ih (i + 1)
      refine ⟨chunkEvents c ++ es, t, ?_, ?_, ht⟩
      · simp [streamEmit, h, he]
      · intro e hmem
        rcases List.mem_append.mp hmem with hm | hm
        · cases c with
          | none => simp [chunkEvents] at hm
          | some u =>
            by_cases hl : u.length ≠ 0
            · simp [chunkEvents, hl] at hm
              subst hm
              rfl
            · simp [chunkEvents, hl] at hm
        · exact hn e hm

theorem streamEmit_stop (stop : Nat → Bool) (err : Option String) :
    ∀ (chunks : List (Option String)) (a : Nat),
      (∃ j, j < chunks.length ∧ stop (a + j) = true) →
      ∃ ts : List String,
        streamEmit stop chunks a err = ts.map StreamEvent.append ++ [StreamEvent.done] := by
  intro chunks
  induction chunks with
  | nil =>
    intro a hex
    obtain ⟨j, hj, _⟩ := hex
    exact absurd hj (by simp)
  | cons c cs ih =>
    intro a hex
    obtain ⟨j, hj, hs⟩ := hex
    by_cases h : stop a = true
    · exact ⟨[], by simp [streamEmit, h]⟩
    · have hj0 : j ≠ 0 := by
        rintro rfl
        exact h (by simpa using hs)
      obtain ⟨j', rfl⟩ := Nat.exists_eq_succ_of_ne_zero hj0
      have hs' : stop ((a + 1) + j') = true := by
        have harith : a + (j' + 1) = (a + 1) + j' := by omega
        rwa [harith] at hs
      have hj' : j' < cs.length := by
        simpa using Nat.lt_of_succ_lt_succ hj
      obtain ⟨ts, hts⟩ := ih (a + 1) ⟨j', hj', hs'⟩
      cases c with
      | none => exact ⟨ts, by simp [streamEmit, h, chunkEvents, hts]⟩
      | some u =>
        by_cases hl : u.length ≠ 0
        · exact ⟨u :: ts, by simp [streamEmit, h, chunkEvents, hl, hts]⟩
        · exact ⟨ts, by simp [streamEmit, h, chunkEvents, hl, hts]⟩

theorem processEvents_appends_done (lexF : LexerTag → String → List (TokKind × String))
    (ts : List String) (s : GUIState) :
    processEvents lexF (ts.map StreamEvent.append ++ [StreamEvent.done]) s
      = finish_generation (processEvents lexF (ts.map StreamEvent.append) s) := by
  rw [processEvents_concat]
  rfl

theorem streamAppendsIdx_stop_false (stop : Nat → Bool) :
    ∀ (chunks : List (Option String)) (a : Nat) (p : Nat × String),
      p ∈ streamAppendsIdx stop chunks a → stop p.1 = false := by
  intro chunks
  induction chunks with
  | nil =>
    intro a p hp
    simp [streamAppendsIdx] at hp
  | cons c cs ih =>
    intro a p hp
    by_cases h : stop a = true
    · simp [streamAppendsIdx, h] at hp
    · rw [streamAppendsIdx, if_neg h] at hp
      rcases List.mem_append.mp hp with hm | hm
      · cases c with
        | none => simp [chunkAppendIdx] at hm
        | some u =>
          by_cases hl : u.length ≠ 0
          · simp [chunkAppendIdx, hl] at hm
            subst hm
            simpa using h
          · simp [chunkAppendIdx, hl] at hm
      · exact ih (a + 1) p hm

theorem appendTexts_concat (a b : List StreamEvent) :
    appendTexts (a ++ b) = appendTexts a ++ appendTexts b := by
  simp [appendTexts, List.filterMap_append]

theorem appendTexts_chunkEvents (c : Option String) :
    appendTexts (chunkEvents c)
      = (match c with
         | some t => if t.length ≠ 0 then [t] else []
         | none => []) := by
  cases c with
  | none => rfl
  | some t =>
    by_cases hl : t.length ≠ 0 <;> simp [chunkEvents, appendTexts, hl]

theorem appendTexts_streamEmit (stop : Nat → Bool) (err : Option String) :
    ∀ (chunks : List (Option String)) (a : Nat),
      appendTexts (streamEmit stop chunks a err)
        = (streamAppendsIdx stop chunks a).map Prod.snd := by
  intro chunks
  induction chunks with
  | nil =>
    intro a
    cases err <;> simp [streamEmit, streamAppendsIdx, appendTexts]
  | cons c cs ih =>
    intro a
    by_cases h : stop a = true
    · simp [streamEmit, streamAppendsIdx, h, appendTexts]
    · rw [streamEmit, if_neg h, streamAppendsIdx, if_neg h, appendTexts_concat,
          List.map_append, ih (a + 1), appendTexts_chunkEvents]
      cases c with
      | none => rfl
      | some u =>
        by_cases hl : u.length ≠ 0 <;> simp [chunkAppendIdx, hl]

theorem apply_highlighting_concat (bufLen : Nat) :
    ∀ (a b : List (TokKind × String)) (i : Nat),
      apply_highlighting bufLen (a ++ b) i
        = apply_highlighting bufLen a i ++ apply_highlighting bufLen b (i + tokensLen a) := by
  intro a
  induction a with
  | nil =>
    intro b i
    simp [apply_highlighting, tokensLen]
  | cons p rest ih =>
    intro b i
    obtain ⟨k, c⟩ := p
    simp [apply_highlighting, tokensLen, ih, Nat.add_assoc]

theorem apply_highlighting_in_bounds (bufLen : Nat) :
    ∀ (toks : List (TokKind × String)) (i : Nat),
      i + tokensLen toks ≤ bufLen →
      apply_highlighting bufLen toks i = (withOffsets toks i).filterMap spanOfTok := by
  intro toks
  induction toks with
  | nil =>
    intro i _
    rfl
  | cons p rest ih =>
    intro i hb
    obtain ⟨k, c⟩ := p
    simp only [tokensLen] at hb
    have hb' : (i + c.length) + tokensLen rest ≤ bufLen := by omega
    have he : i + c.length ≤ bufLen := by omega
    cases htag : get_tag_for_token k with
    | none => simp [apply_highlighting, withOffsets, spanOfTok, htag, ih _ hb']
    | some tg => simp [apply_highlighting, withOffsets, spanOfTok, htag, he, ih _ hb']

/-! ## Claim theorems -/

/-- C1: for every finite ordered sequence of `Append(t1), ..., Append(tn)`
events produced by a session and drained by the dispatcher — however the
events are split across the 50ms ticks — the final TextBuffer content is
the concatenation `t1 ++ t2 ++ ... ++ tn`. -/
theorem C1_append_concat (lexF : LexerTag → String → List (TokKind × String))
    (ts : List String) (ticks : List (List StreamEvent)) (s : GUIState)
    (hg : ticks.flatten = ts.map StreamEvent.append)
    (hb : s.resp.buffer = "") :
    (processTicks lexF ticks s).resp.buffer = concatAll ts := by
  rw [processTicks_eq_flatten, hg, buffer_appends, hb]
  simp

theorem C1_append_concat_w :
    ([[StreamEvent.append "Hel"], [], [StreamEvent.append "lo", StreamEvent.append "!"]].flatten
        = ["Hel", "lo", "!"].map StreamEvent.append) ∧
    sDemo.resp.buffer = "" ∧
    (processTicks lexNone
        [[StreamEvent.append "Hel"], [], [StreamEvent.append "lo", StreamEvent.append "!"]]
        sDemo).resp.buffer
      = concatAll ["Hel", "lo", "!"] :=
  ⟨by decide, rfl,
   C1_append_concat lexNone ["Hel", "lo", "!"]
     [[StreamEvent.append "Hel"], [], [StreamEvent.append "lo", StreamEvent.append "!"]]
     sDemo (by decide) rfl⟩

/-- C2: every worker run (streaming or not) enqueues a sequence that ends
with exactly one terminal event — a `done` on success or an `error` on
failure — with no other terminal event anywhere in the sequence, so a
session never enqueues both a `done` and an `error`. -/
theorem C2_terminal_events (run : GenRun) (stop : Nat → Bool) :
    ∃ es t, workerEvents run stop = es ++ [t] ∧
      (∀ e ∈ es, isTerminal e = false) ∧
      (t = StreamEvent.done ∨ ∃ m, t = StreamEvent.error m) := by
  cases run with
  | streaming chunks err => exact streamEmit_terminal stop err chunks 0
  | nonStreaming res =>
    cases res with
    | ok content =>
      refine ⟨[StreamEvent.set content], StreamEvent.done, rfl, ?_, Or.inl rfl⟩
      intro e he
      simp at he
      subst he
      rfl
    | error m => exact ⟨[], StreamEvent.error m, rfl, by simp, Or.inr ⟨m, rfl⟩⟩

/-- C3: once the cooperative stop flag is set after chunk `k` (it reads
true from boundary `k + 1` on and, being only set during a session, stays
true), no `append` event for any chunk of index greater than `k` is ever
enqueued; the second conjunct ties the indexed account of the appends to
the actual event stream. -/
theorem C3_no_late_appends (chunks : List (Option String)) (err : Option String)
    (stop : Nat → Bool) (k : Nat)
    (hmono : ∀ i j, i ≤ j → stop i = true → stop j = true)
    (hk : stop (k + 1) = true) :
    (∀ p ∈ streamAppendsIdx stop chunks 0, p.1 ≤ k) ∧
    appendTexts (streamEmit stop chunks 0 err)
      = (streamAppendsIdx stop chunks 0).map Prod.snd := by
  constructor
  · intro p hp
    have hf : stop p.1 = false := streamAppendsIdx_stop_false stop chunks 0 p hp
    by_contra hgt
    have hle : k + 1 ≤ p.1 := by omega
    have : stop p.1 = true := hmono (k + 1) p.1 hle hk
    simp [this] at hf
  · exact appendTexts_streamEmit stop err chunks 0

theorem C3_no_late_appends_w :
    (∀ i j, i ≤ j → stopAfter1 i = true → stopAfter1 j = true) ∧
    stopAfter1 (0 + 1) = true ∧
    ((∀ p ∈ streamAppendsIdx stopAfter1 chunksDemo 0, p.1 ≤ 0) ∧
      appendTexts (streamEmit stopAfter1 chunksDemo 0 none)
        = (streamAppendsIdx stopAfter1 chunksDemo 0).map Prod.snd) :=
  ⟨fun i j hij hi => by
      simp only [stopAfter1, decide_eq_true_eq] at hi ⊢
      omega,
   rfl,
   C3_no_late_appends chunksDemo none stopAfter1 0
     (fun i j hij hi => by
       simp only [stopAfter1, decide_eq_true_eq] at hi ⊢
       omega)
     rfl⟩

/-- C4: on a non-whitespace buffer, one reconciliation pass removes every
previously applied span except the selection tag and applies exactly the
spans obtained by lexing the entire widget text from offset 0 with the
detected lexer, mapping each token kind through the fixed table
(first-matching-entry-wins; unmapped kinds yield no span).  The soundness
hypothesis states that the tokenizer's output does not outrun the text, as
Pygments' lexers guarantee, so no span is bounds-skipped. -/
theorem C4_reconcile_spans (lexF : LexerTag → String → List (TokKind × String)) (r : HLState)
    (hne : stripEmpty (widgetText r.buffer).toList = false)
    (hsound : tokensLen (lexF (detect_lexer (widgetText r.buffer).toList) (widgetText r.buffer))
        ≤ (widgetText r.buffer).length) :
    highlight_syntax lexF r
      = (some (detect_lexer (widgetText r.buffer).toList),
         { buffer := r.buffer,
           spans := r.spans.filter (fun sp => sp.tag == "sel")
             ++ specSpans (lexF (detect_lexer (widgetText r.buffer).toList)
                  (widgetText r.buffer)) }) := by
  have happ := apply_highlighting_in_bounds (widgetText r.buffer).length
      (lexF (detect_lexer (widgetText r.buffer).toList) (widgetText r.buffer)) 0
      (by simpa using hsound)
  simp only [ highlight_syntax, hne, Bool.false_eq_true, if_false, happ, specSpans]

theorem C4_reconcile_spans_w :
    stripEmpty (widgetText rDemo.buffer).toList = false ∧
    tokensLen (lexDemo (detect_lexer (widgetText rDemo.buffer).toList) (widgetText rDemo.buffer))
        ≤ (widgetText rDemo.buffer).length ∧
    highlight_syntax lexDemo rDemo
      = (some (detect_lexer (widgetText rDemo.buffer).toList),
         { buffer := rDemo.buffer,
           spans := rDemo.spans.filter (fun sp => sp.tag == "sel")
             ++ specSpans (lexDemo (detect_lexer (widgetText rDemo.buffer).toList)
                  (widgetText rDemo.buffer)) }) :=
  ⟨by decide, by decide, C4_reconcile_spans lexDemo rDemo (by decide) (by decide)⟩

set_option maxRecDepth 4000 in
/-- C5 counterexample: the detector's result does not depend only on the
first 300 characters.  The JSON test inspects the stripped full text, so
300 spaces followed by a brace and 300 spaces followed by a letter agree on
their first 300 characters yet detect as JSON and Python respectively. -/
theorem C5_cex_full_text :
    cexJson.take 300 = cexPlain.take 300 ∧ detect_lexer cexJson ≠ detect_lexer cexPlain := by
  constructor
  · decide
  · decide

/-- C5 (amended): the detector is a pure function of the first 300
characters of the buffer **plus** the brace test on the stripped full
text: any two texts agreeing on their first 300 characters and on whether
their stripped text starts with an opening brace detect identically (and
repeated calls on the same text trivially agree). -/
theorem C5_detector_inputs (t1 t2 : List Char)
    (hpre : t1.take 300 = t2.take 300)
    (hbrace : stripStartsBrace t1 = stripStartsBrace t2) :
    detect_lexer t1 = detect_lexer t2 := by
  have hf : lowerFirst300 t1 = lowerFirst300 t2 := by
    unfold lowerFirst300
    rw [hpre]
  unfold detect_lexer
  rw [hf, hbrace]

set_option maxRecDepth 4000 in
theorem C5_detector_inputs_w :
    cexA.take 300 = cexB.take 300 ∧ stripStartsBrace cexA = stripStartsBrace cexB ∧
      detect_lexer cexA = detect_lexer cexB :=
  ⟨by decide, by decide, C5_detector_inputs cexA cexB (by decide) (by decide)⟩

/-- C6: processing a `set` (Replace) event makes the TextBuffer content
exactly the carried text, whatever the buffer held before. -/
theorem C6_replace_sets_buffer (lexF : LexerTag → String → List (TokKind × String))
    (s : GUIState) (t : String) :
    (dispatchEvent lexF s (StreamEvent.set t)).resp.buffer = t := by
  simp only [dispatchEvent, set_response, highlight_syntax_buffer]

/-- C7: when one token's computed offsets fall outside the buffer bounds,
the failing `tag_add` is skipped and the pass continues: the remaining
tokens are still applied at their own cumulative offsets, and the pass
returns normally. -/
theorem C7_skip_and_continue (bufLen : Nat) (toks1 toks2 : List (TokKind × String))
    (k : TokKind) (c : String)
    (hbad : bufLen < tokensLen toks1 + c.length) :
    apply_highlighting bufLen (toks1 ++ (k, c) :: toks2) 0
      = apply_highlighting bufLen toks1 0
        ++ apply_highlighting bufLen toks2 (tokensLen toks1 + c.length) := by
  rw [apply_highlighting_concat]
  congr 1
  simp only [Nat.zero_add]
  rw [apply_highlighting]
  have hnb : ¬ (tokensLen toks1 + c.length ≤ bufLen) := by omega
  cases htag : get_tag_for_token k <;> simp [htag, hnb]

theorem C7_skip_and_continue_w :
    2 < tokensLen [(TokKind.Keyword, "ab")] + "cd".length ∧
    apply_highlighting 2
        ([(TokKind.Keyword, "ab")] ++ (TokKind.Keyword, "cd") :: [(TokKind.Operator, "e")]) 0
      = apply_highlighting 2 [(TokKind.Keyword, "ab")] 0
        ++ apply_highlighting 2 [(TokKind.Operator, "e")]
            (tokensLen [(TokKind.Keyword, "ab")] + "cd".length) :=
  ⟨by decide,
   C7_skip_and_continue 2 [(TokKind.Keyword, "ab")] [(TokKind.Operator, "e")]
     TokKind.Keyword "cd" (by decide)⟩

/-- C8: calling `generate_code` while a generation is active returns
synchronously with the whole state untouched — no worker is started, no
event is enqueued, the TextBuffer, flags and queue are exactly as before. -/
theorem C8_reject_when_active (s : GUIState) (hactive : s.generationActive = true) :
    generate_code s = (s, false) := by
  simp [generate_code, hactive]

theorem C8_reject_when_active_w :
    sDemo.generationActive = true ∧ generate_code sDemo = (sDemo, false) :=
  ⟨rfl, C8_reject_when_active sDemo rfl⟩

/-- C9: on an empty or whitespace-only buffer a reconciliation pass is a
no-op: it returns before clearing any applied span and before running
detection (`none` reports that no lexer was detected), leaving the
highlighting state unchanged. -/
theorem C9_blank_noop (lexF : LexerTag → String → List (TokKind × String)) (r : HLState)
    (h : stripEmpty (widgetText r.buffer).toList = true) :
    highlight_syntax lexF r = (none, r) := by
  simp only [ highlight_syntax, h, if_true]

theorem C9_blank_noop_w :
    stripEmpty (widgetText rBlank.buffer).toList = true ∧
    highlight_syntax lexNone rBlank = (none, rBlank) :=
  ⟨by decide, C9_blank_noop lexNone rBlank (by decide)⟩

/-- C10: when the streaming worker observes the stop flag at some chunk
boundary, the emitted sequence is its `append` events followed by exactly
one `done` and no `error`; dispatching that sequence leaves the TextBuffer
holding everything appended before cancellation and restores the idle
affordances (generation inactive, stop flag cleared, generate enabled,
stop disabled) through the same `done` path as normal completion. -/
theorem C10_cancel_terminates (lexF : LexerTag → String → List (TokKind × String))
    (chunks : List (Option String)) (err : Option String)
    (stop : Nat → Bool) (s : GUIState)
    (h : ∃ j, j < chunks.length ∧ stop j = true) :
    ∃ ts : List String,
      streamEmit stop chunks 0 err = ts.map StreamEvent.append ++ [StreamEvent.done] ∧
      (processEvents lexF (streamEmit stop chunks 0 err) s).resp.buffer
          = s.resp.buffer ++ concatAll ts ∧
      (processEvents lexF (streamEmit stop chunks 0 err) s).generationActive = false ∧
      (processEvents lexF (streamEmit stop chunks 0 err) s).stopFlag = false ∧
      (processEvents lexF (streamEmit stop chunks 0 err) s).generateEnabled = true ∧
      (processEvents lexF (streamEmit stop chunks 0 err) s).stopEnabled = false := by
  obtain ⟨ts, hts⟩ := streamEmit_stop stop err chunks 0 (by simpa using h)
  refine ⟨ts, hts, ?_, ?_, ?_, ?_, ?_⟩ <;>
    rw [hts, processEvents_appends_done] <;>
    simp [finish_generation, buffer_appends]

theorem C10_cancel_terminates_w :
    (∃ j, j < chunksDemo.length ∧ stopAfter1 j = true) ∧
    (∃ ts : List String,
      streamEmit stopAfter1 chunksDemo 0 none = ts.map StreamEvent.append ++ [StreamEvent.done] ∧
      (processEvents lexNone (streamEmit stopAfter1 chunksDemo 0 none) sDemo).resp.buffer
          = sDemo.resp.buffer ++ concatAll ts ∧
      (processEvents lexNone (streamEmit stopAfter1 chunksDemo 0 none) sDemo).generationActive
          = false ∧
      (processEvents lexNone (streamEmit stopAfter1 chunksDemo 0 none) sDemo).stopFlag = false ∧
      (processEvents lexNone (streamEmit stopAfter1 chunksDemo 0 none) sDemo).generateEnabled
          = true ∧
      (processEvents lexNone (streamEmit stopAfter1 chunksDemo 0 none) sDemo).stopEnabled
          = false) :=
  ⟨⟨1, by decide, rfl⟩,
   C10_cancel_terminates lexNone chunksDemo none stopAfter1 sDemo ⟨1, by decide, rfl⟩⟩
